import Mathlib

/-!
Verification of the weather-intelligence pipeline.

The development shallowly embeds the three Python modules
(`weather_client.py`, `supabase_client.py`, `main.py`):

* Python/JSON values are modelled by the inductive `Val`; Python dicts are
  association lists `List (String × Val)`; `dict.get` is `Val.get` /
  `Val.getD` (returning `vnull` for a missing key, mirroring Python `None`),
  and subscript access `d[k]` is `item` (an `Except` that mirrors `KeyError`).
* `_parse_response` is `parseResponse` (with `parseForecastDay`, `parseAlert`).
* `upsert_weather_batch` is `upsertWeatherBatch` (row building `buildWeatherRow`
  plus the chunk loop `upsertChunksGo`); store write failures are injected by a
  per-chunk oracle `ok : Nat → Bool` and the chunks handed to `execute` are
  returned as a trace.
* `upsert_alerts` is `upsertAlerts` (collection `collectAlertRows`, the delete
  loop `doDeletes`, the chunked insert loop `doInserts`); the alerts store is a
  list of rows and exceptions are injected by oracles.
* The retry loop of `fetch_ward_weather` is `fetchAttempts`/`fetchWardWeather`,
  driven by a schedule `resp : Nat → ApiResponse` giving the outcome of the
  i-th HTTP request; the outcome records the number of requests issued and the
  backoff sleeps performed.
* The window loop and summary of `main` are `runWindows`/`runPipeline` and
  `buildSummary` (wall-clock floats are modelled over `ℚ`).
* The `asyncio.Semaphore` discipline is a step relation `SchedStep` over
  scheduler states, with one permit pool and one task per ward.
-/

/-- A Python/JSON value: `None`, booleans, integers, strings, lists and
dicts (association lists). Numeric leaves of provider payloads are modelled
as integers; no claim depends on numeric arithmetic, only on values being
copied verbatim. -/
inductive Val where
  | vnull : Val
  | vbool : Bool → Val
  | vint : Int → Val
  | vstr : String → Val
  | vlist : List Val → Val
  | vobj : List (String × Val) → Val

mutual

/-- Structural equality test on `Val` (Python `==` on JSON-shaped values). -/
def Val.beq : Val → Val → Bool
  | .vnull, .vnull => true
  | .vbool a, .vbool b => a == b
  | .vint a, .vint b => a == b
  | .vstr a, .vstr b => a == b
  | .vlist xs, .vlist ys => Val.beqList xs ys
  | .vobj xs, .vobj ys => Val.beqObj xs ys
  | _, _ => false

/-- Equality test on lists of values. -/
def Val.beqList : List Val → List Val → Bool
  | [], [] => true
  | x :: xs, y :: ys => Val.beq x y && Val.beqList xs ys
  | _, _ => false

/-- Equality test on association lists. -/
def Val.beqObj : List (String × Val) → List (String × Val) → Bool
  | [], [] => true
  | (k1, v1) :: xs, (k2, v2) :: ys => k1 == k2 && Val.beq v1 v2 && Val.beqObj xs ys
  | _, _ => false

end

instance : BEq Val := ⟨Val.beq⟩

/-- A Python dict as it flows between the modules. -/
abbrev Dict := List (String × Val)

/-- A row of a store table. -/
abbrev Row := Dict

/-- Python `d.get(k, default)`: lookup on a dict value, default when the key is
absent (or when the value is not a dict). -/
def Val.getD (v : Val) (k : String) (d : Val) : Val :=
  match v with
  | .vobj fs =>
    match fs.lookup k with
    | some x => x
    | none => d
  | _ => d

/-- Python `d.get(k)`: missing keys give `None`. -/
def Val.get (v : Val) (k : String) : Val := v.getD k .vnull

/-- Iterating a value that is expected to be a list. -/
def Val.asList : Val → List Val
  | .vlist xs => xs
  | _ => []

/-- Python truthiness of a value (used by `if not w.get("alerts")` and by
`alerts if alerts else None`). -/
def Val.truthy : Val → Bool
  | .vnull => false
  | .vbool b => b
  | .vint n => n != 0
  | .vstr s => s != ""
  | .vlist xs => !xs.isEmpty
  | .vobj fs => !fs.isEmpty

/-- Python `x == 1` for a payload leaf: numbers compare by value and booleans
compare as 0/1 (Python `True == 1`); any other value is not equal to 1. -/
def Val.eqOne : Val → Bool
  | .vint n => n == 1
  | .vbool b => b
  | _ => false

/-- Python `w.get(k)` on a dict given as an association list. -/
def dget (w : Dict) (k : String) : Val :=
  match w.lookup k with
  | some v => v
  | none => .vnull

/-- Python subscript `w[k]`: raises `KeyError` when the key is absent. -/
def item (w : Dict) (k : String) : Except String Val :=
  match w.lookup k with
  | some v => .ok v
  | none => .error ("KeyError: " ++ k)

/-- One entry of the `forecast_days` array built by `_parse_response`
(weather_client.py lines 74-95). -/
def parseForecastDay (day_data : Val) : Val :=
  let day_info := day_data.getD "day" (.vobj [])
  let astro := day_data.getD "astro" (.vobj [])
  let day_condition := day_info.getD "condition" (.vobj [])
  .vobj
    [("date", day_data.get "date"),
     ("maxtemp_c", day_info.get "maxtemp_c"),
     ("mintemp_c", day_info.get "mintemp_c"),
     ("avgtemp_c", day_info.get "avgtemp_c"),
     ("maxwind_kph", day_info.get "maxwind_kph"),
     ("totalprecip_mm", day_info.get "totalprecip_mm"),
     ("avghumidity", day_info.get "avghumidity"),
     ("condition_text", day_condition.get "text"),
     ("condition_icon", day_condition.get "icon"),
     ("daily_chance_of_rain", day_info.get "daily_chance_of_rain"),
     ("daily_chance_of_snow", day_info.get "daily_chance_of_snow"),
     ("uv", day_info.get "uv"),
     ("sunrise", astro.get "sunrise"),
     ("sunset", astro.get "sunset")]

/-- One entry of the `alerts` array built by `_parse_response`
(weather_client.py lines 98-112). -/
def parseAlert (alert : Val) : Val :=
  .vobj
    [("event", alert.get "event"),
     ("headline", alert.get "headline"),
     ("description", alert.get "desc"),
     ("severity", alert.get "severity"),
     ("urgency", alert.get "urgency"),
     ("areas", alert.get "areas"),
     ("category", alert.get "category"),
     ("certainty", alert.get "certainty"),
     ("instruction", alert.get "instruction"),
     ("effective", alert.get "effective"),
     ("expires", alert.get "expires")]

/-- `_parse_response(data, ward_code)` (weather_client.py lines 66-127):
the normalized record returned on an HTTP 200 response. -/
def parseResponse (data : Val) (ward_code : String) : Dict :=
  let current := data.getD "current" (.vobj [])
  let forecast := data.getD "forecast" (.vobj [])
  let alerts_data := data.getD "alerts" (.vobj [])
  let condition := current.getD "condition" (.vobj [])
  let forecast_days := (forecast.getD "forecastday" (.vlist [])).asList.map parseForecastDay
  let alerts := (alerts_data.getD "alert" (.vlist [])).asList.map parseAlert
  [("ward_code", .vstr ward_code),
   ("temperature_c", current.get "temp_c"),
   ("condition_text", condition.get "text"),
   ("condition_icon", condition.get "icon"),
   ("wind_kph", current.get "wind_kph"),
   ("humidity", current.get "humidity"),
   ("is_day", .vbool (current.get "is_day").eqOne),
   ("precip_mm", current.get "precip_mm"),
   ("forecast_days", .vlist forecast_days),
   ("alerts", .vlist alerts),
   ("alerts_summary", if alerts.isEmpty then .vnull else .vlist alerts),
   ("raw", data)]

/-- The row built for one weather result by `upsert_weather_batch`
(supabase_client.py lines 72-89). Subscript access raises `KeyError` for a
missing key; `now` stands for the `datetime.now` timestamp string. -/
def buildWeatherRow (now : Val) (w : Dict) : Except String Row := do
  let ward_code ← item w "ward_code"
  let latitude ← item w "latitude"
  let longitude ← item w "longitude"
  let temperature_c ← item w "temperature_c"
  let condition_text ← item w "condition_text"
  let condition_icon ← item w "condition_icon"
  let wind_kph ← item w "wind_kph"
  let humidity ← item w "humidity"
  let is_day ← item w "is_day"
  let precip_mm ← item w "precip_mm"
  let daily_forecast ← item w "forecast_days"
  let alerts_summary ← item w "alerts_summary"
  let raw_response ← item w "raw"
  return [("ward_code", ward_code),
          ("latitude", latitude),
          ("longitude", longitude),
          ("temperature_c", temperature_c),
          ("condition_text", condition_text),
          ("condition_icon", condition_icon),
          ("wind_kph", wind_kph),
          ("humidity", humidity),
          ("is_day", is_day),
          ("precip_mm", precip_mm),
          ("daily_forecast", daily_forecast),
          ("alerts_summary", alerts_summary),
          ("raw_response", raw_response),
          ("fetched_at", now),
          ("updated_at", now)]

/-- The chunked upsert loop of `upsert_weather_batch` (supabase_client.py
lines 94-107). `ok i` tells whether the `execute` call for chunk `i` succeeds
(it raises otherwise, and the `except` arm only logs). Returns the row count
accumulated from successful chunks and the trace of chunks handed to the
store, in order. -/
def upsertChunksGo (ok : Nat → Bool) : Nat → List Row → Nat × List (List Row)
  | _, [] => (0, [])
  | i, r :: rest =>
    let chunk := (r :: rest).take 500
    let next := upsertChunksGo ok (i + 1) (rest.drop 499)
    ((if ok i then chunk.length else 0) + next.1, chunk :: next.2)
termination_by _ l => l.length
decreasing_by
  simp only [List.length_drop, List.length_cons]
  omega

/-- `upsert_weather_batch` (supabase_client.py lines 64-107): builds all rows
(outside any exception handler), returns 0 for an empty batch, otherwise runs
the chunk loop. First component: the returned count, or the uncaught
exception; second: the chunks whose write was attempted. -/
def upsertWeatherBatch (ok : Nat → Bool) (now : Val) (weather_results : List Dict) :
    Except String Nat × List (List Row) :=
  match weather_results.mapM (buildWeatherRow now) with
  | .error e => (.error e, [])
  | .ok rows =>
    if rows.isEmpty then (.ok 0, [])
    else
      let next := upsertChunksGo ok 0 rows
      (.ok next.1, next.2)

/-- One alert row built by `upsert_alerts` (supabase_client.py
lines 126-139). -/
def buildAlertRow (ward_code : Val) (alert : Val) : Row :=
  [("ward_code", ward_code),
   ("event", alert.get "event"),
   ("headline", alert.get "headline"),
   ("description", alert.get "description"),
   ("severity", alert.get "severity"),
   ("urgency", alert.get "urgency"),
   ("areas", alert.get "areas"),
   ("category", alert.get "category"),
   ("certainty", alert.get "certainty"),
   ("instruction", alert.get "instruction"),
   ("effective", alert.get "effective"),
   ("expires", alert.get "expires")]

/-- The collection loop of `upsert_alerts` (supabase_client.py lines 117-139):
wards whose `alerts` value is falsy are skipped; for the others, `ward_code`
and `alerts` are read by subscript (a `KeyError` propagates, the loop runs
outside the `try` block) and the alert rows are accumulated together with the
set of ward codes having alerts (modelled as a duplicate-free list). -/
def collectAlertRows : List Dict → Except String (List Row × List Val)
  | [] => .ok ([], [])
  | w :: rest =>
    if (dget w "alerts").truthy = false then collectAlertRows rest
    else
      match item w "ward_code" with
      | .error e => .error e
      | .ok ward_code =>
        match item w "alerts" with
        | .error e => .error e
        | .ok alertsVal =>
          match collectAlertRows rest with
          | .error e => .error e
          | .ok (rows, wcs) =>
            .ok (alertsVal.asList.map (buildAlertRow ward_code) ++ rows,
                 if wcs.contains ward_code then wcs else ward_code :: wcs)

/-- Does row `r` satisfy the filter `ward_code = wc` (as in
`delete().eq("ward_code", wc)`)? -/
def rowMatchesWard (wc : Val) (r : Row) : Bool :=
  match r.lookup "ward_code" with
  | some v => Val.beq v wc
  | none => false

/-- Delete all stored alert rows of one ward (supabase_client.py
lines 146-149). -/
def deleteWard (wc : Val) (store : List Row) : List Row :=
  store.filter (fun r => !rowMatchesWard wc r)

/-- The stored alert rows of one ward. -/
def alertsFor (wc : Val) (store : List Row) : List Row :=
  store.filter (rowMatchesWard wc)

/-- The delete loop of `upsert_alerts` (lines 146-149) with injected
failures: `delFail wc` makes the delete call for `wc` raise; the store
reached so far then comes back on the error side. -/
def doDeletes (delFail : Val → Bool) : List Val → List Row → Except (List Row) (List Row)
  | [], store => .ok store
  | wc :: rest, store =>
    if delFail wc then .error store
    else doDeletes delFail rest (deleteWard wc store)

/-- The chunked insert loop of `upsert_alerts` (lines 152-157) with injected
failures: `insFail i` makes the insert of chunk `i` raise. Returns the count
of inserted alerts and the store; on a raise, the store still includes the
chunks already inserted. -/
def doInserts (insFail : Nat → Bool) :
    Nat → List Row → List Row → Except (List Row) (Nat × List Row)
  | _, [], store => .ok (0, store)
  | i, r :: rest, store =>
    if insFail i then .error store
    else
      let chunk := (r :: rest).take 500
      match doInserts insFail (i + 1) (rest.drop 499) (store ++ chunk) with
      | .error st => .error st
      | .ok (n, st) => .ok (chunk.length + n, st)
termination_by _ l _ => l.length
decreasing_by
  simp only [List.length_drop, List.length_cons]
  omega

/-- `upsert_alerts` (supabase_client.py lines 110-163) against a store
modelled as a list of alert rows. A raise inside the `try` block is caught
and reported as zero alerts inserted; a `KeyError` in the collection loop
(which runs before the `try`) propagates as `.error`. -/
def upsertAlerts (delFail : Val → Bool) (insFail : Nat → Bool)
    (weather_results : List Dict) (store : List Row) : Except String (Nat × List Row) :=
  match collectAlertRows weather_results with
  | .error e => .error e
  | .ok (alert_rows, wcs) =>
    if alert_rows.isEmpty then .ok (0, store)
    else
      match doDeletes delFail wcs store with
      | .error st => .ok (0, st)
      | .ok st =>
        match doInserts insFail 0 alert_rows st with
        | .error st2 => .ok (0, st2)
        | .ok (n, st2) => .ok (n, st2)

/-- The insert count reported by `upsert_alerts`, when it returned without an
uncaught exception. -/
def alertInsertCount (r : Except String (Nat × List Row)) : Option Nat :=
  match r with
  | .ok (n, _) => some n
  | .error _ => none

/-- Outcome of one HTTP request of `fetch_ward_weather`: an HTTP status with
the response body, or `aiohttp.ClientError` / `asyncio.TimeoutError`. -/
inductive ApiResponse where
  | http : Nat → Val → ApiResponse
  | transportFailure : ApiResponse

/-- What one call of `fetch_ward_weather` did: the value returned, the number
of HTTP requests issued, and the backoff sleeps in seconds, in order. -/
structure FetchOutcome where
  result : Option Dict
  requests : Nat
  sleeps : List Nat

/-- The retry loop of `fetch_ward_weather` (weather_client.py lines 37-63).
`resp n` is the provider's answer to this ward's n-th request; the first
numeric argument is the number of loop iterations left (3 at entry), the
second the current `attempt` index. On 200 the body is parsed and returned;
on 429 the task sleeps `2 ^ (attempt + 1)` seconds and retries; any other
status returns `None` at once; a transport failure sleeps and retries unless
this was the last attempt. Falling out of the loop returns `None`
(line 63). -/
def fetchAttempts (ward_code : String) (resp : Nat → ApiResponse) :
    Nat → Nat → FetchOutcome
  | 0, _ => ⟨none, 0, []⟩
  | fuel + 1, attempt =>
    match resp attempt with
    | .http status body =>
      if status = 200 then ⟨some (parseResponse body ward_code), 1, []⟩
      else if status = 429 then
        let wait := 2 ^ (attempt + 1)
        let next := fetchAttempts ward_code resp fuel (attempt + 1)
        ⟨next.result, next.requests + 1, wait :: next.sleeps⟩
      else ⟨none, 1, []⟩
    | .transportFailure =>
      if attempt < 2 then
        let wait := 2 ^ (attempt + 1)
        let next := fetchAttempts ward_code resp fuel (attempt + 1)
        ⟨next.result, next.requests + 1, wait :: next.sleeps⟩
      else ⟨none, 1, []⟩

/-- `fetch_ward_weather` for one ward: `for attempt in range(3)`. -/
def fetchWardWeather (ward_code : String) (resp : Nat → ApiResponse) : FetchOutcome :=
  fetchAttempts ward_code resp 3 0

/-- Split a list into consecutive windows of size `s`, as the slicing
`wards[batch_start:batch_end]` for `batch_start in range(0, total, s)` does.
Faithful for `s ≥ 1` (Python raises on a zero step). -/
def chunksOf {α : Type} (s : Nat) : List α → List (List α)
  | [] => []
  | x :: xs => (x :: xs).take s :: chunksOf s (xs.drop (s - 1))
termination_by l => l.length
decreasing_by
  simp only [List.length_drop, List.length_cons]
  omega

/-- The window loop of `main` (main.py lines 70-109) over pre-sliced windows:
each window fetches all its wards (`asyncio.gather` keeps input order), keeps
the non-`None` results, counts the failures, and hands the window's successes
to the writers before the next window starts. Returns all successful results
in order together with the cumulative failure count. -/
def runWindows {α β : Type} (fetch : β → Option α) : List (List β) → List α × Nat
  | [] => ([], 0)
  | batch :: rest =>
    let results := batch.map fetch
    let batch_results := results.filterMap id
    let batch_failed := results.length - batch_results.length
    let next := runWindows fetch rest
    (batch_results ++ next.1, batch_failed + next.2)

/-- The fetch phase of `main` (lines 63-109): windows of `batch_size` wards
processed in order. -/
def runPipeline {α β : Type} (fetch : β → Option α) (batch_size : Nat)
    (wards : List β) : List α × Nat :=
  runWindows fetch (chunksOf batch_size wards)

/-- Python `round(q, 1)`; wall-clock floats are modelled over the
rationals. -/
def round1 (q : ℚ) : ℚ := (round (q * 10) : ℤ) / 10

/-- The summary record of `main` (main.py lines 113-119). -/
structure RunSummary where
  total_wards : Nat
  successful : Nat
  failed : Nat
  elapsed_seconds : ℚ
  wards_per_second : ℚ
deriving DecidableEq

/-- Building the summary (main.py lines 111-119): `wards_per_second` is
`round(total_wards / elapsed, 1)` when `elapsed > 0` and `0` otherwise. -/
def buildSummary {α : Type} (total_wards : Nat) (all_results : List α)
    (failed_count : Nat) (elapsed : ℚ) : RunSummary :=
  { total_wards := total_wards
    successful := all_results.length
    failed := failed_count
    elapsed_seconds := round1 elapsed
    wards_per_second := if 0 < elapsed then round1 (total_wards / elapsed) else 0 }

/-- State of one fetch task with respect to the semaphore: not yet entered
`async with semaphore`, currently holding a permit (all its requests and
backoff sleeps happen here), or finished with the permit released. -/
inductive TaskState where
  | idle : TaskState
  | holding : TaskState
  | finished : TaskState
deriving DecidableEq

/-- Scheduler state: the free permits of `asyncio.Semaphore(batch_size)`
together with the state of every fetch task of the run. -/
structure SchedState where
  permits : Nat
  tasks : List TaskState
deriving DecidableEq

/-- Initial state: a fresh `asyncio.Semaphore(w)` (main.py line 63) and `n`
tasks none of which has started. -/
def initSched (w n : Nat) : SchedState := ⟨w, List.replicate n .idle⟩

/-- Is this task inside `async with semaphore`? -/
def isHolding (t : TaskState) : Bool := t == TaskState.holding

/-- The number of Provider Client calls in flight. -/
def inFlight (s : SchedState) : Nat := s.tasks.countP isHolding

/-- One cooperative-scheduler transition of the run: a task enters
`async with semaphore` (only when a permit is free), performs a suspension
step while holding its permit (an HTTP request or a backoff sleep, no
scheduler-state change), or leaves the `async with` block releasing the
permit. -/
inductive SchedStep : SchedState → SchedState → Prop where
  | acquire {s : SchedState} {i : Nat} :
      s.tasks.get? i = some .idle → 0 < s.permits →
      SchedStep s ⟨s.permits - 1, s.tasks.set i .holding⟩
  | work {s : SchedState} {i : Nat} :
      s.tasks.get? i = some .holding → SchedStep s s
  | release {s : SchedState} {i : Nat} :
      s.tasks.get? i = some .holding →
      SchedStep s ⟨s.permits + 1, s.tasks.set i .finished⟩

/-- Reachability from the initial state by scheduler transitions. -/
def SchedReachable (w n : Nat) (s : SchedState) : Prop :=
  Relation.ReflTransGen SchedStep (initSched w n) s

/-- Follows the spec's words, for comparison with the count the weather
writer returns: the total number of rows belonging to chunks whose write
succeeded, chunks being numbered from `i`. -/
def specSucceededRowCount (ok : Nat → Bool) : Nat → List (List Row) → Nat
  | _, [] => 0
  | i, c :: cs => (if ok i then c.length else 0) + specSucceededRowCount ok (i + 1) cs

mutual

theorem Val.beq_refl : ∀ v : Val, Val.beq v v = true
  | .vnull => rfl
  | .vbool b => by simp [Val.beq]
  | .vint n => by simp [Val.beq]
  | .vstr s => by simp [Val.beq]
  | .vlist xs => by simpa [Val.beq] using Val.beqList_refl xs
  | .vobj fs => by simpa [Val.beq] using Val.beqObj_refl fs

theorem Val.beqList_refl : ∀ xs : List Val, Val.beqList xs xs = true
  | [] => rfl
  | x :: xs => by simpa [Val.beqList] using And.intro (Val.beq_refl x) (Val.beqList_refl xs)

theorem Val.beqObj_refl : ∀ fs : List (String × Val), Val.beqObj fs fs = true
  | [] => rfl
  | (k, v) :: fs => by simpa [Val.beqObj] using And.intro (Val.beq_refl v) (Val.beqObj_refl fs)

end

mutual

theorem Val.eq_of_beq : ∀ (a b : Val), Val.beq a b = true → a = b
  | .vnull, .vnull, _ => rfl
  | .vnull, .vbool _, h => by simp [Val.beq] at h
  | .vnull, .vint _, h => by simp [Val.beq] at h
  | .vnull, .vstr _, h => by simp [Val.beq] at h
  | .vnull, .vlist _, h => by simp [Val.beq] at h
  | .vnull, .vobj _, h => by simp [Val.beq] at h
  | .vbool _, .vnull, h => by simp [Val.beq] at h
  | .vbool a, .vbool b, h => by simp [Val.beq] at h; simp [h]
  | .vbool _, .vint _, h => by simp [Val.beq] at h
  | .vbool _, .vstr _, h => by simp [Val.beq] at h
  | .vbool _, .vlist _, h => by simp [Val.beq] at h
  | .vbool _, .vobj _, h => by simp [Val.beq] at h
  | .vint _, .vnull, h => by simp [Val.beq] at h
  | .vint _, .vbool _, h => by simp [Val.beq] at h
  | .vint a, .vint b, h => by simp [Val.beq] at h; simp [h]
  | .vint _, .vstr _, h => by simp [Val.beq] at h
  | .vint _, .vlist _, h => by simp [Val.beq] at h
  | .vint _, .vobj _, h => by simp [Val.beq] at h
  | .vstr _, .vnull, h => by simp [Val.beq] at h
  | .vstr _, .vbool _, h => by simp [Val.beq] at h
  | .vstr _, .vint _, h => by simp [Val.beq] at h
  | .vstr a, .vstr b, h => by simp [Val.beq] at h; simp [h]
  | .vstr _, .vlist _, h => by simp [Val.beq] at h
  | .vstr _, .vobj _, h => by simp [Val.beq] at h
  | .vlist _, .vnull, h => by simp [Val.beq] at h
  | .vlist _, .vbool _, h => by simp [Val.beq] at h
  | .vlist _, .vint _, h => by simp [Val.beq] at h
  | .vlist _, .vstr _, h => by simp [Val.beq] at h
  | .vlist xs, .vlist ys, h => by
      have hl := Val.eqList_of_beqList xs ys (by simpa [Val.beq] using h)
      simp [hl]
  | .vlist _, .vobj _, h => by simp [Val.beq] at h
  | .vobj _, .vnull, h => by simp [Val.beq] at h
  | .vobj _, .vbool _, h => by simp [Val.beq] at h
  | .vobj _, .vint _, h => by simp [Val.beq] at h
  | .vobj _, .vstr _, h => by simp [Val.beq] at h
  | .vobj _, .vlist _, h => by simp [Val.beq] at h
  | .vobj xs, .vobj ys, h => by
      have ho := Val.eqObj_of_beqObj xs ys (by simpa [Val.beq] using h)
      simp [ho]

theorem Val.eqList_of_beqList : ∀ (xs ys : List Val), Val.beqList xs ys = true → xs = ys
  | [], [], _ => rfl
  | [], _ :: _, h => by simp [Val.beqList] at h
  | _ :: _, [], h => by simp [Val.beqList] at h
  | x :: xs, y :: ys, h => by
      rw [Val.beqList] at h
      have h1 := Bool.and_elim_left h
      have h2 := Bool.and_elim_right h
      rw [Val.eq_of_beq x y h1, Val.eqList_of_beqList xs ys h2]

theorem Val.eqObj_of_beqObj : ∀ (xs ys : List (String × Val)), Val.beqObj xs ys = true → xs = ys
  | [], [], _ => rfl
  | [], _ :: _, h => by simp [Val.beqObj] at h
  | _ :: _, [], h => by simp [Val.beqObj] at h
  | (k1, v1) :: xs, (k2, v2) :: ys, h => by
      rw [Val.beqObj] at h
      have h3 := Bool.and_elim_right h
      have h12 := Bool.and_elim_left h
      have hk : k1 = k2 := by simpa using Bool.and_elim_left h12
      rw [hk, Val.eq_of_beq v1 v2 (Bool.and_elim_right h12), Val.eqObj_of_beqObj xs ys h3]

end

theorem Val.beq_eq_false_of_ne {a b : Val} (h : a ≠ b) : Val.beq a b = false := by
  cases hb : Val.beq a b with
  | false => rfl
  | true => exact absurd (Val.eq_of_beq a b hb) h

/-- C2: for a ward whose first two requests answer HTTP 429 and whose third
answers HTTP 200, exactly 3 requests are issued, the backoff before the
second request is 2 seconds and before the third 4 seconds, and the fetch
returns the normalized parse of the 200 payload rather than a failure. -/
theorem claimC2_two_rate_limits_then_success (wc : String) (resp : Nat → ApiResponse)
    (b0 b1 body : Val) (h0 : resp 0 = .http 429 b0) (h1 : resp 1 = .http 429 b1)
    (h2 : resp 2 = .http 200 body) :
    fetchWardWeather wc resp =
      ⟨some (parseResponse body wc), 3, [2, 4]⟩ := by
  simp [fetchWardWeather, fetchAttempts, h0, h1, h2]

theorem claimC2_witness :
    fetchWardWeather "W1"
        (fun n => if n = 2 then .http 200 (.vobj []) else .http 429 .vnull) =
      ⟨some (parseResponse (.vobj []) "W1"), 3, [2, 4]⟩ :=
  claimC2_two_rate_limits_then_success "W1" _ .vnull .vnull (.vobj []) rfl rfl rfl

theorem length_filterMap_eq_countP {α β : Type} (f : α → Option β) (l : List α) :
    (l.filterMap f).length = l.countP (fun a => (f a).isSome) := by
  induction l with
  | nil => rfl
  | cons x xs ih => cases hfx : f x <;> simp [List.filterMap_cons, hfx, List.countP_cons, ih]

theorem countP_isSome_add_isNone {α β : Type} (f : α → Option β) (l : List α) :
    l.countP (fun a => (f a).isSome) + l.countP (fun a => (f a).isNone) = l.length := by
  induction l with
  | nil => rfl
  | cons x xs ih => cases hfx : f x <;> simp [List.countP_cons, hfx] <;> omega

theorem runWindows_eq {α β : Type} (fetch : β → Option α) (chunks : List (List β)) :
    runWindows fetch chunks =
      (chunks.flatten.filterMap fetch,
       chunks.flatten.countP (fun w => (fetch w).isNone)) := by
  induction chunks with
  | nil => rfl
  | cons batch rest ih =>
    simp only [runWindows, ih, List.flatten_cons, List.filterMap_append, List.countP_append,
      List.filterMap_map, CompTriple.comp_eq, Prod.mk.injEq]
    constructor
    · trivial
    · have h1 := length_filterMap_eq_countP fetch batch
      have h2 := countP_isSome_add_isNone fetch batch
      simp only [List.length_map, length_filterMap_eq_countP]
      omega

theorem flatten_chunksOf {α : Type} (s : Nat) (hs : 1 ≤ s) :
    ∀ l : List α, (chunksOf s l).flatten = l
  | [] => by simp [chunksOf]
  | x :: xs => by
    rw [chunksOf]
    obtain ⟨t, rfl⟩ : ∃ t, s = t + 1 := ⟨s - 1, by omega⟩
    have ih := flatten_chunksOf (t + 1) hs (xs.drop t)
    simp only [List.flatten_cons, ih, List.take_cons, Nat.add_sub_cancel]
    simp [List.take_append_drop]
termination_by l => l.length
decreasing_by
  simp only [List.length_drop, List.length_cons]
  omega

theorem runPipeline_eq {α β : Type} (fetch : β → Option α) (bs : Nat) (hbs : 1 ≤ bs)
    (wards : List β) :
    runPipeline fetch bs wards =
      (wards.filterMap fetch, wards.countP (fun w => (fetch w).isNone)) := by
  rw [runPipeline, runWindows_eq, flatten_chunksOf bs hbs]

/-- C3: a ward whose three requests all fail at transport level issues exactly
3 requests with sleeps of 2 then 4 seconds and returns `None`; at the run
level, the run's failed count equals the number of wards whose fetch returned
`None` (so such a ward contributes to it, making the count positive), and
every record handed to the writers originates from a ward whose fetch
succeeded, so no row is written for the failing ward. -/
theorem claimC3_transport_errors_exhaust_retries :
    (∀ (wc : String) (resp : Nat → ApiResponse),
      (∀ i, i < 3 → resp i = .transportFailure) →
      fetchWardWeather wc resp = ⟨none, 3, [2, 4]⟩) ∧
    (∀ {α β : Type} (fetch : β → Option α) (bs : Nat) (wards : List β) (w : β),
      1 ≤ bs → w ∈ wards → fetch w = none →
      (runPipeline fetch bs wards).2 = wards.countP (fun x => (fetch x).isNone) ∧
      1 ≤ (runPipeline fetch bs wards).2 ∧
      ∀ r ∈ (runPipeline fetch bs wards).1, ∃ x ∈ wards, fetch x = some r) := by
  constructor
  · intro wc resp h
    simp [fetchWardWeather, fetchAttempts, h 0 (by omega), h 1 (by omega), h 2 (by omega)]
  · intro α β fetch bs wards w hbs hw hfw
    rw [runPipeline_eq fetch bs hbs]
    refine ⟨rfl, ?_, ?_⟩
    · have : wards.countP (fun x => (fetch x).isNone) ≠ 0 := by
        intro hzero
        rw [List.countP_eq_zero] at hzero
        have := hzero w hw
        simp [hfw] at this
      omega
    · intro r hr
      simp only [List.mem_filterMap] at hr
      obtain ⟨x, hx, hfx⟩ := hr
      exact ⟨x, hx, hfx⟩

theorem claimC3_witness :
    fetchWardWeather "W2" (fun _ => .transportFailure) = ⟨none, 3, [2, 4]⟩ ∧
    (runPipeline (fun n : Nat => if n = 0 then none else some n) 2 [0, 1, 2]).2 = 1 :=
  ⟨claimC3_transport_errors_exhaust_retries.1 "W2" _ (fun _ _ => rfl),
   by
    have h := (claimC3_transport_errors_exhaust_retries.2
      (fun n : Nat => if n = 0 then none else some n) 2 [0, 1, 2] 0
      (by omega) (by simp) (by simp)).1
    rw [h]
    decide⟩

/-- C9: for every completed run, the summary reports `total_wards` equal to
the number of input wards, `successful` the number of wards whose fetch
returned a result, `failed` the number whose fetch returned `None` (hence
`successful + failed = total_wards`), `wards_per_second` is zero when the
elapsed time is zero, and in the 120-ward scenario with 2 permanent failures
the summary has `successful = 118` and `failed = 2`. -/
theorem claimC9_summary_counts {α β : Type} (fetch : β → Option α) (bs : Nat)
    (wards : List β) (elapsed : ℚ) (hbs : 1 ≤ bs) :
    (buildSummary wards.length (runPipeline fetch bs wards).1
        (runPipeline fetch bs wards).2 elapsed).total_wards = wards.length ∧
    (buildSummary wards.length (runPipeline fetch bs wards).1
        (runPipeline fetch bs wards).2 elapsed).successful =
      wards.countP (fun w => (fetch w).isSome) ∧
    (buildSummary wards.length (runPipeline fetch bs wards).1
        (runPipeline fetch bs wards).2 elapsed).failed =
      wards.countP (fun w => (fetch w).isNone) ∧
    (buildSummary wards.length (runPipeline fetch bs wards).1
        (runPipeline fetch bs wards).2 elapsed).successful +
      (buildSummary wards.length (runPipeline fetch bs wards).1
        (runPipeline fetch bs wards).2 elapsed).failed = wards.length ∧
    (elapsed = 0 →
      (buildSummary wards.length (runPipeline fetch bs wards).1
        (runPipeline fetch bs wards).2 elapsed).wards_per_second = 0) ∧
    (wards.length = 120 → wards.countP (fun w => (fetch w).isNone) = 2 →
      (buildSummary wards.length (runPipeline fetch bs wards).1
          (runPipeline fetch bs wards).2 elapsed).successful = 118 ∧
      (buildSummary wards.length (runPipeline fetch bs wards).1
          (runPipeline fetch bs wards).2 elapsed).failed = 2) := by
  rw [runPipeline_eq fetch bs hbs]
  have hlen := length_filterMap_eq_countP fetch wards
  have hsum := countP_isSome_add_isNone fetch wards
  refine ⟨rfl, by simpa [buildSummary] using hlen, rfl, ?_, ?_, ?_⟩
  · simp only [buildSummary, hlen]
    omega
  · intro h0
    simp [buildSummary, h0]
  · intro h120 h2
    simp only [buildSummary, hlen]
    omega

theorem claimC9_witness :
    (buildSummary
        (List.replicate 118 (some ()) ++ List.replicate 2 none).length
        (runPipeline id 50 (List.replicate 118 (some ()) ++ List.replicate 2 none)).1
        (runPipeline id 50 (List.replicate 118 (some ()) ++ List.replicate 2 none)).2
        0).successful = 118 ∧
    (buildSummary
        (List.replicate 118 (some ()) ++ List.replicate 2 none).length
        (runPipeline id 50 (List.replicate 118 (some ()) ++ List.replicate 2 none)).1
        (runPipeline id 50 (List.replicate 118 (some ()) ++ List.replicate 2 none)).2
        0).failed = 2 ∧
    (buildSummary
        (List.replicate 118 (some ()) ++ List.replicate 2 none).length
        (runPipeline id 50 (List.replicate 118 (some ()) ++ List.replicate 2 none)).1
        (runPipeline id 50 (List.replicate 118 (some ()) ++ List.replicate 2 none)).2
        0).wards_per_second = 0 := by
  have h := claimC9_summary_counts id 50
    (List.replicate 118 (some ()) ++ List.replicate 2 none) 0 (by omega)
  obtain ⟨-, -, -, -, hz, hs⟩ := h
  have hc := hs (by decide) (by decide)
  exact ⟨hc.1, hc.2, hz rfl⟩

theorem upsertChunksGo_trace (ok : Nat → Bool) :
    ∀ (i : Nat) (rows : List Row), (upsertChunksGo ok i rows).2 = chunksOf 500 rows
  | _, [] => by simp [upsertChunksGo, chunksOf]
  | i, r :: rest => by
    rw [upsertChunksGo, chunksOf]
    have ih := upsertChunksGo_trace ok (i + 1) (rest.drop 499)
    simp [ih]
termination_by _ rows => rows.length
decreasing_by
  simp only [List.length_drop, List.length_cons]
  omega

theorem upsertChunksGo_count (ok : Nat → Bool) :
    ∀ (i : Nat) (rows : List Row),
      (upsertChunksGo ok i rows).1 = specSucceededRowCount ok i (chunksOf 500 rows)
  | _, [] => by simp [upsertChunksGo, chunksOf, specSucceededRowCount]
  | i, r :: rest => by
    rw [upsertChunksGo, chunksOf, specSucceededRowCount]
    have ih := upsertChunksGo_count ok (i + 1) (rest.drop 499)
    simp [ih]
termination_by _ rows => rows.length
decreasing_by
  simp only [List.length_drop, List.length_cons]
  omega

theorem chunksOf_length_le {α : Type} (s : Nat) :
    ∀ (l : List α) (c : List α), c ∈ chunksOf s l → c.length ≤ s
  | [], c => by simp [chunksOf]
  | x :: xs, c => by
    rw [chunksOf]
    intro hc
    rcases List.mem_cons.1 hc with h | h
    · subst h
      exact List.length_take_le s (x :: xs)
    · exact chunksOf_length_le s (xs.drop (s - 1)) c h
termination_by l => l.length
decreasing_by
  simp only [List.length_drop, List.length_cons]
  omega

theorem specSucceededRowCount_all_ok   :
    ∀ (i : Nat) (chunks : List (List Row)),
      specSucceededRowCount (fun _ => true) i chunks = chunks.flatten.length
  | _, [] => by simp [specSucceededRowCount]
  | i, c :: cs => by
    rw [specSucceededRowCount, List.flatten_cons]
    simp [specSucceededRowCount_all_ok (i + 1) cs]

/-- C8: the weather writer applies a row list in chunks of at most 500 rows;
the chunks handed to the store are exactly the 500-slices of the input, no
matter which chunk writes fail (a chunk failure is caught and the remaining
chunks are still attempted), and the returned count is exactly the total
number of rows belonging to chunks whose write succeeded (hence the full row
count when every chunk succeeds). -/
theorem claimC8_chunked_partial_failure (ok : Nat → Bool) (rows : List Row) :
    (upsertChunksGo ok 0 rows).2 = chunksOf 500 rows ∧
    (upsertChunksGo ok 0 rows).2.all (fun c => Nat.ble c.length 500) = true ∧
    (upsertChunksGo ok 0 rows).1 = specSucceededRowCount ok 0 (chunksOf 500 rows) ∧
    ((∀ i, ok i = true) → (upsertChunksGo ok 0 rows).1 = rows.length) := by
  refine ⟨upsertChunksGo_trace ok 0 rows, ?_, upsertChunksGo_count ok 0 rows, ?_⟩
  · rw [upsertChunksGo_trace ok 0 rows, List.all_eq_true]
    intro c hc
    simpa [Nat.ble_eq] using chunksOf_length_le 500 rows c hc
  · intro hall
    have hok : ok = fun _ => true := funext fun i => hall i
    rw [upsertChunksGo_count ok 0 rows, hok, specSucceededRowCount_all_ok,
      flatten_chunksOf 500 (by omega) rows]

theorem claimC8_witness :
    (upsertChunksGo (fun _ => true) 0 (List.replicate 501 ([] : Row))).2 =
      chunksOf 500 (List.replicate 501 ([] : Row)) ∧
    (upsertChunksGo (fun _ => true) 0 (List.replicate 501 ([] : Row))).1 =
      (List.replicate 501 ([] : Row)).length := by
  have h := claimC8_chunked_partial_failure (fun _ => true) (List.replicate 501 ([] : Row))
  exact ⟨h.1, h.2.2.2 (fun _ => rfl)⟩

/-- C10: the Response Normalizer never emits `latitude` or `longitude` keys,
while the weather writer reads both by subscript outside its per-chunk
exception handler; hence on any non-empty batch of normalizer-produced
records, `upsert_weather_batch` raises `KeyError` on `latitude` before any
chunk write is attempted. -/
theorem claimC10_writer_keyerror_on_normalizer_records :
    (∀ (d : Val) (wc : String),
      (parseResponse d wc).lookup "latitude" = none ∧
      (parseResponse d wc).lookup "longitude" = none) ∧
    (∀ (d : Val) (wc : String) (rest : List Dict) (ok : Nat → Bool) (now : Val),
      upsertWeatherBatch ok now (parseResponse d wc :: rest) =
        (.error "KeyError: latitude", [])) := by
  constructor
  · intro d wc
    exact ⟨rfl, rfl⟩
  · intro d wc rest ok now
    rfl

theorem claimC10_witness :
    upsertWeatherBatch (fun _ => true) (.vstr "T") [parseResponse (.vobj []) "W9"] =
      (.error "KeyError: latitude", []) :=
  claimC10_writer_keyerror_on_normalizer_records.2 (.vobj []) "W9" [] _ _

/-- C1 is wrong about the code as shipped: the normalized record of a ward
with an HTTP 200 response is handed to `upsert_weather_batch`, which reads
`w["latitude"]` and `w["longitude"]` that `_parse_response` never produces.
Evaluated at the failing input (ward `W1`, 200 response with payload
`{"current": {"temp_c": 21}}`), the writer raises `KeyError: latitude`
before attempting any write instead of persisting the row. -/
theorem claimC1_code_bug_write_never_completes :
    fetchWardWeather "W1"
        (fun _ => .http 200 (.vobj [("current", .vobj [("temp_c", .vint 21)])])) =
      ⟨some (parseResponse (.vobj [("current", .vobj [("temp_c", .vint 21)])]) "W1"),
       1, []⟩ ∧
    upsertWeatherBatch (fun _ => true) (.vstr "2026-02-01T00:00:00+00:00")
        [parseResponse (.vobj [("current", .vobj [("temp_c", .vint 21)])]) "W1"] =
      (.error "KeyError: latitude", []) := by
  exact ⟨rfl, rfl⟩

/-- C5 as stated is false at the concrete payload `{}` (ward `W1`): the
`is_day` field is an optional payload field, yet when it is missing the
normalized record carries the sentinel `False` (from `== 1` on `None`)
rather than an absent value. -/
theorem claimC5_counterexample_is_day :
    dget (parseResponse (.vobj []) "W1") "is_day" = .vbool false ∧
    Val.vbool false ≠ .vnull := by
  refine ⟨rfl, ?_⟩
  intro h
  cases h

/-- C5 amended: every missing optional payload field maps to an absent
(null) value in the normalized record and a zero-alert payload yields a null
alert summary, except for the day/night flag: a missing `current.is_day`
maps to the boolean `False`, not to null. Stated for every top-level field,
all fourteen per-forecast-day fields and all eleven per-alert fields. -/
theorem claimC5_missing_fields_absent_except_is_day (data : Val) (wc : String) :
    ((data.getD "current" (.vobj [])).get "temp_c" = .vnull →
      dget (parseResponse data wc) "temperature_c" = .vnull) ∧
    (((data.getD "current" (.vobj [])).getD "condition" (.vobj [])).get "text" = .vnull →
      dget (parseResponse data wc) "condition_text" = .vnull) ∧
    (((data.getD "current" (.vobj [])).getD "condition" (.vobj [])).get "icon" = .vnull →
      dget (parseResponse data wc) "condition_icon" = .vnull) ∧
    ((data.getD "current" (.vobj [])).get "wind_kph" = .vnull →
      dget (parseResponse data wc) "wind_kph" = .vnull) ∧
    ((data.getD "current" (.vobj [])).get "humidity" = .vnull →
      dget (parseResponse data wc) "humidity" = .vnull) ∧
    ((data.getD "current" (.vobj [])).get "precip_mm" = .vnull →
      dget (parseResponse data wc) "precip_mm" = .vnull) ∧
    (((data.getD "alerts" (.vobj [])).getD "alert" (.vlist [])).asList = [] →
      dget (parseResponse data wc) "alerts_summary" = .vnull) ∧
    ((data.getD "current" (.vobj [])).get "is_day" = .vnull →
      dget (parseResponse data wc) "is_day" = .vbool false) ∧
    (∀ day_data : Val,
      (day_data.get "date" = .vnull →
        (parseForecastDay day_data).get "date" = .vnull) ∧
      ((day_data.getD "day" (.vobj [])).get "maxtemp_c" = .vnull →
        (parseForecastDay day_data).get "maxtemp_c" = .vnull) ∧
      ((day_data.getD "day" (.vobj [])).get "mintemp_c" = .vnull →
        (parseForecastDay day_data).get "mintemp_c" = .vnull) ∧
      ((day_data.getD "day" (.vobj [])).get "avgtemp_c" = .vnull →
        (parseForecastDay day_data).get "avgtemp_c" = .vnull) ∧
      ((day_data.getD "day" (.vobj [])).get "maxwind_kph" = .vnull →
        (parseForecastDay day_data).get "maxwind_kph" = .vnull) ∧
      ((day_data.getD "day" (.vobj [])).get "totalprecip_mm" = .vnull →
        (parseForecastDay day_data).get "totalprecip_mm" = .vnull) ∧
      ((day_data.getD "day" (.vobj [])).get "avghumidity" = .vnull →
        (parseForecastDay day_data).get "avghumidity" = .vnull) ∧
      (((day_data.getD "day" (.vobj [])).getD "condition" (.vobj [])).get "text" = .vnull →
        (parseForecastDay day_data).get "condition_text" = .vnull) ∧
      (((day_data.getD "day" (.vobj [])).getD "condition" (.vobj [])).get "icon" = .vnull →
        (parseForecastDay day_data).get "condition_icon" = .vnull) ∧
      ((day_data.getD "day" (.vobj [])).get "daily_chance_of_rain" = .vnull →
        (parseForecastDay day_data).get "daily_chance_of_rain" = .vnull) ∧
      ((day_data.getD "day" (.vobj [])).get "daily_chance_of_snow" = .vnull →
        (parseForecastDay day_data).get "daily_chance_of_snow" = .vnull) ∧
      ((day_data.getD "day" (.vobj [])).get "uv" = .vnull →
        (parseForecastDay day_data).get "uv" = .vnull) ∧
      ((day_data.getD "astro" (.vobj [])).get "sunrise" = .vnull →
        (parseForecastDay day_data).get "sunrise" = .vnull) ∧
      ((day_data.getD "astro" (.vobj [])).get "sunset" = .vnull →
        (parseForecastDay day_data).get "sunset" = .vnull)) ∧
    (∀ alert : Val,
      (alert.get "event" = .vnull → (parseAlert alert).get "event" = .vnull) ∧
      (alert.get "headline" = .vnull → (parseAlert alert).get "headline" = .vnull) ∧
      (alert.get "desc" = .vnull → (parseAlert alert).get "description" = .vnull) ∧
      (alert.get "severity" = .vnull → (parseAlert alert).get "severity" = .vnull) ∧
      (alert.get "urgency" = .vnull → (parseAlert alert).get "urgency" = .vnull) ∧
      (alert.get "areas" = .vnull → (parseAlert alert).get "areas" = .vnull) ∧
      (alert.get "category" = .vnull → (parseAlert alert).get "category" = .vnull) ∧
      (alert.get "certainty" = .vnull → (parseAlert alert).get "certainty" = .vnull) ∧
      (alert.get "instruction" = .vnull →
        (parseAlert alert).get "instruction" = .vnull) ∧
      (alert.get "effective" = .vnull → (parseAlert alert).get "effective" = .vnull) ∧
      (alert.get "expires" = .vnull → (parseAlert alert).get "expires" = .vnull)) := by
  refine ⟨?_, ?_, ?_, ?_, ?_, ?_, ?_, ?_, ?_, ?_⟩
  · intro h
    show (data.getD "current" (.vobj [])).get "temp_c" = .vnull
    exact h
  · intro h
    show ((data.getD "current" (.vobj [])).getD "condition" (.vobj [])).get "text" = .vnull
    exact h
  · intro h
    show ((data.getD "current" (.vobj [])).getD "condition" (.vobj [])).get "icon" = .vnull
    exact h
  · intro h
    show (data.getD "current" (.vobj [])).get "wind_kph" = .vnull
    exact h
  · intro h
    show (data.getD "current" (.vobj [])).get "humidity" = .vnull
    exact h
  · intro h
    show (data.getD "current" (.vobj [])).get "precip_mm" = .vnull
    exact h
  · intro h
    show dget (parseResponse data wc) "alerts_summary" = .vnull
    simp only [parseResponse, dget, List.lookup, h]
    rfl
  · intro h
    show Val.vbool ((data.getD "current" (.vobj [])).get "is_day").eqOne = .vbool false
    rw [h]
    rfl
  · intro day_data
    refine ⟨?_, ?_, ?_, ?_, ?_, ?_, ?_, ?_, ?_, ?_, ?_, ?_, ?_, ?_⟩ <;>
      intro h <;> exact h
  · intro alert
    refine ⟨?_, ?_, ?_, ?_, ?_, ?_, ?_, ?_, ?_, ?_, ?_⟩ <;> intro h <;> exact h

theorem claimC5_amended_witness :
    dget (parseResponse (.vobj []) "W0") "temperature_c" = .vnull ∧
    dget (parseResponse (.vobj []) "W0") "condition_text" = .vnull ∧
    dget (parseResponse (.vobj []) "W0") "condition_icon" = .vnull ∧
    dget (parseResponse (.vobj []) "W0") "wind_kph" = .vnull ∧
    dget (parseResponse (.vobj []) "W0") "humidity" = .vnull ∧
    dget (parseResponse (.vobj []) "W0") "precip_mm" = .vnull ∧
    dget (parseResponse (.vobj []) "W0") "alerts_summary" = .vnull ∧
    dget (parseResponse (.vobj []) "W0") "is_day" = .vbool false ∧
    (parseForecastDay (.vobj [])).get "date" = .vnull ∧
    (parseForecastDay (.vobj [])).get "maxtemp_c" = .vnull ∧
    (parseForecastDay (.vobj [])).get "mintemp_c" = .vnull ∧
    (parseForecastDay (.vobj [])).get "avgtemp_c" = .vnull ∧
    (parseForecastDay (.vobj [])).get "maxwind_kph" = .vnull ∧
    (parseForecastDay (.vobj [])).get "totalprecip_mm" = .vnull ∧
    (parseForecastDay (.vobj [])).get "avghumidity" = .vnull ∧
    (parseForecastDay (.vobj [])).get "condition_text" = .vnull ∧
    (parseForecastDay (.vobj [])).get "condition_icon" = .vnull ∧
    (parseForecastDay (.vobj [])).get "daily_chance_of_rain" = .vnull ∧
    (parseForecastDay (.vobj [])).get "daily_chance_of_snow" = .vnull ∧
    (parseForecastDay (.vobj [])).get "uv" = .vnull ∧
    (parseForecastDay (.vobj [])).get "sunrise" = .vnull ∧
    (parseForecastDay (.vobj [])).get "sunset" = .vnull ∧
    (parseAlert (.vobj [])).get "event" = .vnull ∧
    (parseAlert (.vobj [])).get "headline" = .vnull ∧
    (parseAlert (.vobj [])).get "description" = .vnull ∧
    (parseAlert (.vobj [])).get "severity" = .vnull ∧
    (parseAlert (.vobj [])).get "urgency" = .vnull ∧
    (parseAlert (.vobj [])).get "areas" = .vnull ∧
    (parseAlert (.vobj [])).get "category" = .vnull ∧
    (parseAlert (.vobj [])).get "certainty" = .vnull ∧
    (parseAlert (.vobj [])).get "instruction" = .vnull ∧
    (parseAlert (.vobj [])).get "effective" = .vnull ∧
    (parseAlert (.vobj [])).get "expires" = .vnull := by
  obtain ⟨h1, h2, h3, h4, h5, h6, h7, h8, hday, halert⟩ :=
    claimC5_missing_fields_absent_except_is_day (.vobj []) "W0"
  obtain ⟨d1, d2, d3, d4, d5, d6, d7, d8, d9, d10, d11, d12, d13, d14⟩ :=
    hday (.vobj [])
  obtain ⟨a1, a2, a3, a4, a5, a6, a7, a8, a9, a10, a11⟩ := halert (.vobj [])
  exact ⟨h1 rfl, h2 rfl, h3 rfl, h4 rfl, h5 rfl, h6 rfl, h7 rfl, h8 rfl,
    d1 rfl, d2 rfl, d3 rfl, d4 rfl, d5 rfl, d6 rfl, d7 rfl, d8 rfl, d9 rfl,
    d10 rfl, d11 rfl, d12 rfl, d13 rfl, d14 rfl,
    a1 rfl, a2 rfl, a3 rfl, a4 rfl, a5 rfl, a6 rfl, a7 rfl, a8 rfl, a9 rfl,
    a10 rfl, a11 rfl⟩

theorem countP_set_get {α : Type} (p : α → Bool) :
    ∀ (l : List α) (i : Nat) (x y : α), l.get? i = some y →
      (l.set i x).countP p + (if p y then 1 else 0) =
        l.countP p + (if p x then 1 else 0)
  | [], i, x, y => by simp
  | a :: as, 0, x, y => by
    intro h
    simp only [List.get?_cons_zero, Option.some.injEq] at h
    subst h
    simp only [List.set_cons_zero, List.countP_cons]
    omega
  | a :: as, i + 1, x, y => by
    intro h
    simp only [List.get?_cons_succ] at h
    have ih := countP_set_get p as i x y h
    simp only [List.set_cons_succ, List.countP_cons]
    omega

theorem schedReachable_permit_sum (w n : Nat) (s : SchedState)
    (h : SchedReachable w n s) : inFlight s + s.permits = w := by
  induction h with
  | refl =>
    simp only [inFlight, initSched]
    have hz : (List.replicate n TaskState.idle).countP isHolding = 0 := by
      simp only [List.countP_eq_zero]
      intro t ht
      rw [List.eq_of_mem_replicate ht]
      simp [isHolding]
    omega
  | tail hab hbc ih =>
    cases hbc with
    | acquire hi hp =>
      rename_i s i
      have hc := countP_set_get isHolding s.tasks i .holding .idle hi
      have e1 : (if isHolding TaskState.idle then 1 else 0) = 0 := rfl
      have e2 : (if isHolding TaskState.holding then 1 else 0) = 1 := rfl
      rw [e1, e2] at hc
      simp only [inFlight] at ih ⊢
      omega
    | work hi => exact ih
    | release hi =>
      rename_i s i
      have hc := countP_set_get isHolding s.tasks i .finished .holding hi
      have e1 : (if isHolding TaskState.holding then 1 else 0) = 1 := rfl
      have e2 : (if isHolding TaskState.finished then 1 else 0) = 0 := rfl
      rw [e1, e2] at hc
      simp only [inFlight] at ih ⊢
      omega

/-- C4: with window size `w`, in every state the run can reach, at most `w`
Provider Client calls are in flight: a fetch task performs all its requests
and backoff sleeps while holding one permit of the `asyncio.Semaphore(w)`
pool, acquisition blocks while no permit is free, and so the number of
holding tasks never exceeds `w`, for any number of tasks. -/
theorem claimC4_window_bounds_in_flight_calls (w n : Nat) (s : SchedState)
    (h : SchedReachable w n s) : inFlight s ≤ w := by
  have := schedReachable_permit_sum w n s h
  omega

theorem claimC4_witness :
    inFlight ⟨1, [TaskState.holding, TaskState.idle, TaskState.idle]⟩ ≤ 2 :=
  claimC4_window_bounds_in_flight_calls 2 3 _
    (Relation.ReflTransGen.single
      (SchedStep.acquire (i := 0) rfl (by decide)))

theorem val_contains_iff (l : List Val) (a : Val) : l.contains a = true ↔ a ∈ l := by
  induction l with
  | nil =>
    constructor
    · intro h
      exact nomatch h
    · intro h
      exact absurd h (List.not_mem_nil a)
  | cons b bs ih =>
    rw [List.contains_cons, Bool.or_eq_true, ih, List.mem_cons]
    constructor
    · rintro (h1 | h2)
      · exact Or.inl (Val.eq_of_beq a b h1)
      · exact Or.inr h2
    · rintro (rfl | h2)
      · exact Or.inl (Val.beq_refl a)
      · exact Or.inr h2

theorem rowMatchesWard_buildAlertRow (wc c : Val) (a : Val) :
    rowMatchesWard wc (buildAlertRow c a) = Val.beq c wc := rfl

theorem rowMatchesWard_excl {wc wcd : Val} (h : wc ≠ wcd) (r : Row)
    (hm : rowMatchesWard wc r = true) : rowMatchesWard wcd r = false := by
  unfold rowMatchesWard at hm ⊢
  cases hl : r.lookup "ward_code" with
  | none => rw [hl] at hm
  | some v =>
    rw [hl] at hm
    have hv := Val.eq_of_beq v wc hm
    subst hv
    exact Val.beq_eq_false_of_ne h

theorem alertsFor_append (wc : Val) (a b : List Row) :
    alertsFor wc (a ++ b) = alertsFor wc a ++ alertsFor wc b := by
  simp [alertsFor, List.filter_append]

theorem alertsFor_deleteWard_self (wc : Val) (store : List Row) :
    alertsFor wc (deleteWard wc store) = [] := by
  simp only [alertsFor, deleteWard, List.filter_filter]
  rw [List.filter_eq_nil_iff]
  intro r hr
  simp only [Bool.and_eq_true, Bool.not_eq_true]
  rintro ⟨h1, h2⟩
  rw [h1] at h2
  cases h2

theorem alertsFor_deleteWard_other {wc wcd : Val} (h : wc ≠ wcd) (store : List Row) :
    alertsFor wc (deleteWard wcd store) = alertsFor wc store := by
  simp only [alertsFor, deleteWard, List.filter_filter]
  apply List.filter_congr
  intro r hr
  by_cases hm : rowMatchesWard wc r = true
  · rw [hm, rowMatchesWard_excl h r hm]
    rfl
  · simp only [Bool.not_eq_true] at hm
    rw [hm]
    rfl

theorem doDeletes_ok : ∀ (wcs : List Val) (store : List Row),
    doDeletes (fun _ => false) wcs store =
      .ok (wcs.foldl (fun st wc => deleteWard wc st) store)
  | [], store => rfl
  | wc :: rest, store => by
    rw [doDeletes, List.foldl_cons]
    simp only [Bool.false_eq_true, if_false]
    exact doDeletes_ok rest (deleteWard wc store)

theorem alertsFor_deleteAll (wc : Val) :
    ∀ (wcs : List Val) (store : List Row),
      alertsFor wc (wcs.foldl (fun st w => deleteWard w st) store) =
        if wcs.contains wc then [] else alertsFor wc store
  | [], store => by
    constructor
  | w :: rest, store => by
    rw [List.foldl_cons, alertsFor_deleteAll wc rest (deleteWard w store),
      List.contains_cons]
    by_cases hcr : rest.contains wc = true
    · rw [hcr]
      simp
    · simp only [Bool.not_eq_true] at hcr
      rw [hcr, Bool.or_false]
      simp only [Bool.false_eq_true, if_false]
      by_cases hw : (wc == w) = true
      · have heq : wc = w := Val.eq_of_beq wc w hw
        subst heq
        rw [hw]
        simp only [if_true]
        exact alertsFor_deleteWard_self wc store
      · simp only [Bool.not_eq_true] at hw
        rw [hw]
        simp only [Bool.false_eq_true, if_false]
        have hne : wc ≠ w := by
          intro he
          rw [he, show (w == w) = Val.beq w w from rfl, Val.beq_refl w] at hw
          cases hw
        exact alertsFor_deleteWard_other hne store

theorem doInserts_ok : ∀ (i : Nat) (rows store : List Row),
    doInserts (fun _ => false) i rows store = .ok (rows.length, store ++ rows)
  | _, [], store => by simp [doInserts]
  | i, r :: rest, store => by
    rw [doInserts]
    simp only [Bool.false_eq_true, if_false]
    rw [doInserts_ok (i + 1) (rest.drop 499) (store ++ (r :: rest).take 500)]
    have hsplit : (r :: rest).take 500 ++ rest.drop 499 = r :: rest := by
      have h1 : rest.drop 499 = (r :: rest).drop 500 := rfl
      rw [h1, List.take_append_drop]
    have hlen : ((r :: rest).take 500).length + (rest.drop 499).length =
        (r :: rest).length := by
      rw [← List.length_append, hsplit]
    rw [List.append_assoc, hsplit]
    simp only [Except.ok.injEq, Prod.mk.injEq, and_true]
    omega
termination_by _ rows _ => rows.length
decreasing_by
  simp only [List.length_drop, List.length_cons]
  omega

theorem alertsFor_block_self {wc c : Val} (h : Val.beq c wc = true) (as : List Val) :
    alertsFor wc (as.map (buildAlertRow c)) = as.map (buildAlertRow c) := by
  rw [alertsFor, List.filter_eq_self]
  intro r hr
  obtain ⟨a, _, rfl⟩ := List.mem_map.1 hr
  rw [rowMatchesWard_buildAlertRow, h]

theorem alertsFor_block_other {wc c : Val} (h : Val.beq c wc = false) (as : List Val) :
    alertsFor wc (as.map (buildAlertRow c)) = [] := by
  rw [alertsFor, List.filter_eq_nil_iff]
  intro r hr
  obtain ⟨a, _, rfl⟩ := List.mem_map.1 hr
  rw [rowMatchesWard_buildAlertRow, h]
  exact Bool.false_ne_true

theorem alertsFor_blocks_none {wc : Val} :
    ∀ ws : List Dict,
      (∀ w ∈ ws, (dget w "alerts").truthy = true →
        Val.beq (dget w "ward_code") wc = false) →
      alertsFor wc
        (ws.flatMap (fun w =>
          if (dget w "alerts").truthy then
            (dget w "alerts").asList.map (buildAlertRow (dget w "ward_code"))
          else [])) = []
  | [], _ => rfl
  | w :: rest, h => by
    rw [List.flatMap_cons, alertsFor_append]
    rw [alertsFor_blocks_none rest (fun w' hw' => h w' (List.mem_cons_of_mem w hw'))]
    by_cases ht : (dget w "alerts").truthy = true
    · rw [if_pos ht, alertsFor_block_other (h w (List.mem_cons_self w rest) ht)]
      rfl
    · simp only [Bool.not_eq_true] at ht
      rw [ht]
      simp [alertsFor]

theorem alertsFor_blocks_single {ws : List Dict} {w : Dict}
    (hnd : (ws.map (fun x => dget x "ward_code")).Nodup) (hw : w ∈ ws)
    (ht : (dget w "alerts").truthy = true) :
    alertsFor (dget w "ward_code")
      (ws.flatMap (fun x =>
        if (dget x "alerts").truthy then
          (dget x "alerts").asList.map (buildAlertRow (dget x "ward_code"))
        else [])) =
      (dget w "alerts").asList.map (buildAlertRow (dget w "ward_code")) := by
  induction ws with
  | nil => exact absurd hw (List.not_mem_nil w)
  | cons x rest ih =>
    rw [List.map_cons, List.nodup_cons] at hnd
    rw [List.flatMap_cons, alertsFor_append]
    rcases List.mem_cons.1 hw with rfl | hwr
    · rw [if_pos ht, alertsFor_block_self (Val.beq_refl _)]
      rw [alertsFor_blocks_none rest ?_]
      · rw [List.append_nil]
      · intro w' hw' ht'
        cases hb : Val.beq (dget w' "ward_code") (dget w "ward_code") with
        | false => rfl
        | true =>
          have he := Val.eq_of_beq _ _ hb
          exact absurd (he ▸ List.mem_map_of_mem (fun x => dget x "ward_code") hw')
            hnd.1
    · rw [ih hnd.2 hwr]
      have hx : alertsFor (dget w "ward_code")
          (if (dget x "alerts").truthy then
            (dget x "alerts").asList.map (buildAlertRow (dget x "ward_code"))
          else []) = [] := by
        by_cases hxt : (dget x "alerts").truthy = true
        · rw [if_pos hxt]
          apply alertsFor_block_other
          cases hb : Val.beq (dget x "ward_code") (dget w "ward_code") with
          | false => rfl
          | true =>
            have he := Val.eq_of_beq _ _ hb
            exact absurd (he ▸ List.mem_map_of_mem (fun y => dget y "ward_code") hwr)
              hnd.1
        · simp only [Bool.not_eq_true] at hxt
          rw [hxt]
          simp [alertsFor]
      rw [hx, List.nil_append]

theorem item_eq_ok_dget (w : Dict) (k : String) (h : (dget w k).truthy = true) :
    item w k = .ok (dget w k) := by
  unfold item dget
  cases hl : w.lookup k with
  | none =>
    exfalso
    unfold dget at h
    rw [hl] at h
    exact nomatch h
  | some v => rfl

theorem dget_eq_of_item_ok {w : Dict} {k : String} {c : Val} (h : item w k = .ok c) :
    dget w k = c := by
  unfold item at h
  unfold dget
  cases hl : w.lookup k with
  | none =>
    rw [hl] at h
    exact nomatch h
  | some v =>
    rw [hl] at h
    exact Except.ok.inj h

theorem collectAlertRows_spec :
    ∀ (ws : List Dict) (rows : List Row) (wcs : List Val),
      collectAlertRows ws = .ok (rows, wcs) →
      rows = ws.flatMap (fun w =>
        if (dget w "alerts").truthy then
          (dget w "alerts").asList.map (buildAlertRow (dget w "ward_code"))
        else []) ∧
      ∀ wc : Val,
        wc ∈ wcs ↔ ∃ w ∈ ws, (dget w "alerts").truthy = true ∧ dget w "ward_code" = wc := by
  intro ws
  induction ws with
  | nil =>
    intro rows wcs h
    simp only [collectAlertRows, Except.ok.injEq, Prod.mk.injEq] at h
    obtain ⟨rfl, rfl⟩ := h
    constructor
    · rfl
    · intro wc
      simp
  | cons w rest ih =>
    intro rows wcs h
    by_cases ht : (dget w "alerts").truthy = true
    · simp only [collectAlertRows, ht, Bool.true_eq_false, if_false] at h
      cases hcode : item w "ward_code" with
      | error e => rw [hcode] at h; exact nomatch h
      | ok c =>
        rw [hcode, item_eq_ok_dget w "alerts" ht] at h
        cases hrest : collectAlertRows rest with
        | error e => rw [hrest] at h; exact nomatch h
        | ok pr =>
          obtain ⟨rrows, rwcs⟩ := pr
          rw [hrest] at h
          simp only [Except.ok.injEq, Prod.mk.injEq] at h
          obtain ⟨hrows, hwcs⟩ := h
          obtain ⟨ihr, ihm⟩ := ih rrows rwcs hrest
          have hc : dget w "ward_code" = c := dget_eq_of_item_ok hcode
          constructor
          · rw [← hrows, List.flatMap_cons, if_pos ht, ihr, hc]
          · intro wc
            rw [← hwcs]
            by_cases hin : rwcs.contains c = true
            · rw [if_pos hin]
              rw [ihm wc]
              constructor
              · intro hx
                obtain ⟨w', hw', hx'⟩ := hx
                exact ⟨w', List.mem_cons_of_mem w hw', hx'⟩
              · rintro ⟨w', hw', ht', he'⟩
                rcases List.mem_cons.1 hw' with rfl | hw''
                · rw [hc] at he'
                  subst he'
                  exact (ihm c).1 ((val_contains_iff rwcs c).1 hin)
                · exact ⟨w', hw'', ht', he'⟩
            · simp only [Bool.not_eq_true] at hin
              rw [if_neg (by rw [hin]; exact Bool.false_ne_true)]
              rw [List.mem_cons, ihm wc]
              constructor
              · rintro (rfl | hx)
                · exact ⟨w, List.mem_cons_self w rest, ht, hc⟩
                · obtain ⟨w', hw', hx'⟩ := hx
                  exact ⟨w', List.mem_cons_of_mem w hw', hx'⟩
              · rintro ⟨w', hw', ht', he'⟩
                rcases List.mem_cons.1 hw' with rfl | hw''
                · left
                  rw [← he', hc]
                · right
                  exact ⟨w', hw'', ht', he'⟩
    · simp only [Bool.not_eq_true] at ht
      simp only [collectAlertRows, ht, if_pos] at h
      obtain ⟨ihr, ihm⟩ := ih rows wcs h
      constructor
      · rw [ihr, List.flatMap_cons, ht]
        simp
      · intro wc
        rw [ihm wc]
        constructor
        · intro hx
          obtain ⟨w', hw', hx'⟩ := hx
          exact ⟨w', List.mem_cons_of_mem w hw', hx'⟩
        · rintro ⟨w', hw', ht', he'⟩
          rcases List.mem_cons.1 hw' with rfl | hw''
          · rw [ht] at ht'
            exact absurd ht' Bool.false_ne_true
          · exact ⟨w', hw'', ht', he'⟩

/-- C6: with no store failures, the alert writer deletes all previously
stored alerts of every batch ward that has at least one alert and inserts
that ward's new alert set, so that afterwards the stored alerts of such a
ward are exactly the rows built from its current alerts; the stored alerts
of a batch ward with zero current alerts are left entirely untouched.
Hypotheses: the batch collection succeeds (no `KeyError`), ward codes in the
batch are pairwise distinct, and each ward's `alerts` value is a list (as
the normalizer always produces). -/
theorem claimC6_alert_replace_per_ward
    (ws : List Dict) (store : List Row) (rows : List Row) (wcs : List Val)
    (hcol : collectAlertRows ws = .ok (rows, wcs))
    (hnd : (ws.map (fun w => dget w "ward_code")).Nodup)
    (hlist : ∀ w ∈ ws, ∃ l : List Val, dget w "alerts" = .vlist l) :
    upsertAlerts (fun _ => false) (fun _ => false) ws store =
      .ok (rows.length, wcs.foldl (fun st wc => deleteWard wc st) store ++ rows) ∧
    ∀ w ∈ ws,
      ((dget w "alerts").asList ≠ [] →
        alertsFor (dget w "ward_code")
            (wcs.foldl (fun st wc => deleteWard wc st) store ++ rows) =
          (dget w "alerts").asList.map (buildAlertRow (dget w "ward_code"))) ∧
      ((dget w "alerts").asList = [] →
        alertsFor (dget w "ward_code")
            (wcs.foldl (fun st wc => deleteWard wc st) store ++ rows) =
          alertsFor (dget w "ward_code") store) := by
  obtain ⟨hrows, hmem⟩ := collectAlertRows_spec ws rows wcs hcol
  have htruthy : ∀ w ∈ ws,
      ((dget w "alerts").truthy = true ↔ (dget w "alerts").asList ≠ []) := by
    intro w hw
    obtain ⟨l, hl⟩ := hlist w hw
    rw [hl]
    cases l with
    | nil => simp [Val.truthy, Val.asList]
    | cons a as => simp [Val.truthy, Val.asList]
  constructor
  · simp only [upsertAlerts, hcol]
    by_cases hre : rows.isEmpty = true
    · have hrnil : rows = [] := List.isEmpty_iff.1 hre
      have hwnil : wcs = [] := by
        rw [List.eq_nil_iff_forall_not_mem]
        intro wc hwc
        obtain ⟨w, hw, ht, _⟩ := (hmem wc).1 hwc
        have hne := (htruthy w hw).1 ht
        have hfw := (List.flatMap_eq_nil_iff.1 (hrows ▸ hrnil)) w hw
        rw [if_pos ht] at hfw
        exact hne (List.map_eq_nil_iff.1 hfw)
      subst hrnil
      subst hwnil
      simp
    · rw [if_neg hre, doDeletes_ok wcs store]
      simp [doInserts_ok]
  · intro w hw
    constructor
    · intro hne
      have ht : (dget w "alerts").truthy = true := (htruthy w hw).2 hne
      have hin : wcs.contains (dget w "ward_code") = true :=
        (val_contains_iff wcs (dget w "ward_code")).2 ((hmem _).2 ⟨w, hw, ht, rfl⟩)
      rw [alertsFor_append, alertsFor_deleteAll, hin, if_pos rfl, List.nil_append,
        hrows, alertsFor_blocks_single hnd hw ht]
    · intro hnil
      have ht : (dget w "alerts").truthy = false := by
        cases hb : (dget w "alerts").truthy with
        | false => rfl
        | true => exact absurd hnil (by simpa using (htruthy w hw).1 hb)
      have hnotin : wcs.contains (dget w "ward_code") = false := by
        cases hb : wcs.contains (dget w "ward_code") with
        | false => rfl
        | true =>
          obtain ⟨w', hw', ht', he'⟩ :=
            (hmem _).1 ((val_contains_iff wcs (dget w "ward_code")).1 hb)
          have : w' = w := List.inj_on_of_nodup_map hnd hw' hw he'
          subst this
          rw [ht] at ht'
          exact absurd ht' Bool.false_ne_true
      have hself : alertsFor (dget w "ward_code")
          (wcs.foldl (fun st wc => deleteWard wc st) store) =
          alertsFor (dget w "ward_code") store := by
        rw [alertsFor_deleteAll, hnotin, if_neg (by exact Bool.false_ne_true)]
      have hblocks : alertsFor (dget w "ward_code") rows = [] := by
        rw [hrows]
        apply alertsFor_blocks_none
        intro w' hw' ht'
        cases hb : Val.beq (dget w' "ward_code") (dget w "ward_code") with
        | false => rfl
        | true =>
          have he := Val.eq_of_beq _ _ hb
          have : w' = w := List.inj_on_of_nodup_map hnd hw' hw he
          subst this
          rw [ht] at ht'
          exact absurd ht' Bool.false_ne_true
      rw [alertsFor_append, hself, hblocks, List.append_nil]

theorem claimC6_witness :
    upsertAlerts (fun _ => false) (fun _ => false)
        [[("ward_code", Val.vstr "A"),
          ("alerts", Val.vlist [Val.vobj [("event", Val.vstr "Storm")]])],
         [("ward_code", Val.vstr "B"), ("alerts", Val.vlist [])]]
        [[("ward_code", Val.vstr "A"), ("event", Val.vstr "Old")],
         [("ward_code", Val.vstr "B"), ("event", Val.vstr "OldB")]] =
      .ok (1,
        [Val.vstr "A"].foldl (fun st wc => deleteWard wc st)
            [[("ward_code", Val.vstr "A"), ("event", Val.vstr "Old")],
             [("ward_code", Val.vstr "B"), ("event", Val.vstr "OldB")]] ++
          [buildAlertRow (Val.vstr "A") (Val.vobj [("event", Val.vstr "Storm")])]) ∧
    alertsFor (Val.vstr "A")
        ([Val.vstr "A"].foldl (fun st wc => deleteWard wc st)
            [[("ward_code", Val.vstr "A"), ("event", Val.vstr "Old")],
             [("ward_code", Val.vstr "B"), ("event", Val.vstr "OldB")]] ++
          [buildAlertRow (Val.vstr "A") (Val.vobj [("event", Val.vstr "Storm")])]) =
      [buildAlertRow (Val.vstr "A") (Val.vobj [("event", Val.vstr "Storm")])] ∧
    alertsFor (Val.vstr "B")
        ([Val.vstr "A"].foldl (fun st wc => deleteWard wc st)
            [[("ward_code", Val.vstr "A"), ("event", Val.vstr "Old")],
             [("ward_code", Val.vstr "B"), ("event", Val.vstr "OldB")]] ++
          [buildAlertRow (Val.vstr "A") (Val.vobj [("event", Val.vstr "Storm")])]) =
      alertsFor (Val.vstr "B")
        [[("ward_code", Val.vstr "A"), ("event", Val.vstr "Old")],
         [("ward_code", Val.vstr "B"), ("event", Val.vstr "OldB")]] := by
  have h := claimC6_alert_replace_per_ward
    [[("ward_code", Val.vstr "A"),
      ("alerts", Val.vlist [Val.vobj [("event", Val.vstr "Storm")]])],
     [("ward_code", Val.vstr "B"), ("alerts", Val.vlist [])]]
    [[("ward_code", Val.vstr "A"), ("event", Val.vstr "Old")],
     [("ward_code", Val.vstr "B"), ("event", Val.vstr "OldB")]]
    [buildAlertRow (Val.vstr "A") (Val.vobj [("event", Val.vstr "Storm")])]
    [Val.vstr "A"]
    rfl
    (by
      simp only [List.map_cons, List.map_nil, List.nodup_cons, List.not_mem_nil,
        not_false_iff, and_true, List.nodup_nil, List.mem_singleton,
        List.mem_nil_iff, or_false]
      intro h
      exact absurd (Val.vstr.inj h) (by decide))
    (by
      intro w hw
      rcases List.mem_cons.1 hw with rfl | hw2
      · exact ⟨[Val.vobj [("event", Val.vstr "Storm")]], rfl⟩
      · rcases List.mem_cons.1 hw2 with rfl | hw3
        · exact ⟨[], rfl⟩
        · exact absurd hw3 (List.not_mem_nil w))
  refine ⟨h.1, ?_, ?_⟩
  · exact (h.2 _ (List.mem_cons_self _ _)).1 (fun hx => nomatch hx)
  · exact (h.2 _ (List.mem_cons_of_mem _ (List.mem_cons_self _ _))).2 rfl

theorem doDeletes_fail (delFail : Val → Bool) :
    ∀ (wcs : List Val) (store : List Row),
      (∃ wc ∈ wcs, delFail wc = true) →
      ∃ st, doDeletes delFail wcs store = .error st
  | [], store => by
    rintro ⟨wc, hwc, -⟩
    exact absurd hwc (List.not_mem_nil wc)
  | wc :: rest, store => by
    rintro ⟨w, hw, hf⟩
    rw [doDeletes]
    by_cases hd : delFail wc = true
    · rw [if_pos hd]
      exact ⟨store, rfl⟩
    · rw [if_neg hd]
      apply doDeletes_fail delFail rest (deleteWard wc store)
      rcases List.mem_cons.1 hw with rfl | hw2
      · exact absurd hf hd
      · exact ⟨w, hw2, hf⟩

theorem doDeletes_ok_of (delFail : Val → Bool) :
    ∀ (wcs : List Val) (store : List Row),
      (∀ wc ∈ wcs, delFail wc = false) →
      doDeletes delFail wcs store =
        .ok (wcs.foldl (fun st wc => deleteWard wc st) store)
  | [], store => fun _ => rfl
  | wc :: rest, store => by
    intro h
    rw [doDeletes, List.foldl_cons,
      if_neg (by rw [h wc (List.mem_cons_self wc rest)]; exact Bool.false_ne_true)]
    exact doDeletes_ok_of delFail rest (deleteWard wc store)
      (fun w hw => h w (List.mem_cons_of_mem wc hw))

theorem doInserts_fail (insFail : Nat → Bool) :
    ∀ (i : Nat) (rows store : List Row),
      (∃ j, j < (chunksOf 500 rows).length ∧ insFail (i + j) = true) →
      ∃ st, doInserts insFail i rows store = .error st
  | i, [], store => by
    rintro ⟨j, hj, -⟩
    have hce : chunksOf 500 ([] : List Row) = [] := by simp [chunksOf]
    rw [hce] at hj
    exact absurd hj (by simp)
  | i, r :: rest, store => by
    rintro ⟨j, hj, hf⟩
    rw [doInserts]
    by_cases hi : insFail i = true
    · rw [if_pos hi]
      exact ⟨store, rfl⟩
    · rw [if_neg hi]
      have hrec : ∃ st, doInserts insFail (i + 1) (rest.drop 499)
          (store ++ (r :: rest).take 500) = .error st := by
        apply doInserts_fail insFail (i + 1) (rest.drop 499)
        cases j with
        | zero =>
          rw [Nat.add_zero] at hf
          exact absurd hf hi
        | succ j' =>
          refine ⟨j', ?_, ?_⟩
          · rw [chunksOf, List.length_cons] at hj
            norm_num at hj
            omega
          · rw [show i + 1 + j' = i + (j' + 1) by omega]
            exact hf
      obtain ⟨st, hst⟩ := hrec
      refine ⟨st, ?_⟩
      simp only [hst]
termination_by _ rows _ => rows.length
decreasing_by
  simp only [List.length_drop, List.length_cons]
  omega

/-- C7: if any exception is raised during the alert delete/insert sequence
(a delete call for some collected ward fails, or the deletes succeed and
some insert chunk in range fails), alert processing for the batch is
aborted, `upsert_alerts` returns 0 as the count of alerts inserted, and the
exception does not propagate out of the writer. -/
theorem claimC7_alert_failure_reports_zero
    (ws : List Dict) (store : List Row) (rows : List Row) (wcs : List Val)
    (delFail : Val → Bool) (insFail : Nat → Bool)
    (hcol : collectAlertRows ws = .ok (rows, wcs))
    (hfail : (∃ wc ∈ wcs, delFail wc = true) ∨
      ((∀ wc ∈ wcs, delFail wc = false) ∧
        ∃ j, j < (chunksOf 500 rows).length ∧ insFail j = true)) :
    alertInsertCount (upsertAlerts delFail insFail ws store) = some 0 := by
  simp only [upsertAlerts, hcol]
  by_cases hre : rows.isEmpty = true
  · rw [if_pos hre]
    rfl
  · rw [if_neg hre]
    rcases hfail with hdel | ⟨hall, j, hj, hf⟩
    · obtain ⟨st, hst⟩ := doDeletes_fail delFail wcs store hdel
      rw [hst]
      rfl
    · rw [doDeletes_ok_of delFail wcs store hall]
      obtain ⟨st, hst⟩ := doInserts_fail insFail 0 rows
        (wcs.foldl (fun st wc => deleteWard wc st) store)
        ⟨j, hj, by rw [Nat.zero_add]; exact hf⟩
      simp only [hst]
      rfl

theorem claimC7_witness :
    alertInsertCount (upsertAlerts (fun _ => true) (fun _ => false)
        [[("ward_code", Val.vstr "A"),
          ("alerts", Val.vlist [Val.vobj [("event", Val.vstr "Storm")]])]]
        []) = some 0 :=
  claimC7_alert_failure_reports_zero _ []
    [buildAlertRow (Val.vstr "A") (Val.vobj [("event", Val.vstr "Storm")])]
    [Val.vstr "A"] _ _ rfl
    (Or.inl ⟨Val.vstr "A", List.mem_cons_self _ _, rfl⟩)
